import Mathlib

/-!
# Verification of the libpspproxy PDU engine and scratch allocator

Shallow embedding of the PDU protocol engine (`src/psp-stub-pdu.c`) and the
scratch-space allocator (`src/psp-proxy.c`) of the PSPReverse/libpspproxy
repository, together with theorems settling the specification claims.

Bytes are modelled as `Nat` values below 256, byte sequences as `List Nat`,
and the C `uint32_t` wrap-around arithmetic as explicit `% 2^32`.

The wire-format constants and struct layouts (`PSPSERIALPDUHDR`,
`PSPSERIALPDUFOOTER`, magic values, RRN-ID enum values, notification
structs) live in `psp-stub/psp-serial-stub.h`, which is an external include
not present in this repository's sources; those are modelled from the spec
(16-byte header = 4 magic bytes + 12 field bytes; 8-byte footer = 4
checksum bytes + 4 end-magic bytes; distinct per-direction magics) and each
such definition carries a `Modelled from the spec:` doc comment.
-/

namespace PspProxy

/-- Modelled from the spec: host-to-stub PDU start magic ("value A").  The
concrete constant is defined in `psp-stub/psp-serial-stub.h`, absent from this
repository; the spec fixes only that the four magics are pairwise distinct and
direction-dependent.  A placeholder nonzero value is used. -/
def PSP_SERIAL_EXT_2_PSP_PDU_START_MAGIC : Nat := 0x45585450

/-- Modelled from the spec: host-to-stub PDU end magic ("value B"), placeholder
distinct nonzero value (see `PSP_SERIAL_EXT_2_PSP_PDU_START_MAGIC`). -/
def PSP_SERIAL_EXT_2_PSP_PDU_END_MAGIC : Nat := 0x45585445

/-- Modelled from the spec: stub-to-host PDU start magic, placeholder distinct
nonzero value (see `PSP_SERIAL_EXT_2_PSP_PDU_START_MAGIC`). -/
def PSP_SERIAL_PSP_2_EXT_PDU_START_MAGIC : Nat := 0x50535450

/-- Modelled from the spec: stub-to-host PDU end magic, placeholder distinct
nonzero value (see `PSP_SERIAL_EXT_2_PSP_PDU_START_MAGIC`). -/
def PSP_SERIAL_PSP_2_EXT_PDU_END_MAGIC : Nat := 0x50535445

/-- Modelled from the spec: RRN-ID numeric ranges.  The spec states that
request, response and notification kinds live in three separate numeric
ranges; the concrete enum values are in `psp-stub/psp-serial-stub.h`, absent
from this repository.  Placeholder ranges: requests from 1, responses from 64,
notifications from 128. -/
def PSPSERIALPDURRNID_REQUEST_CONNECT : Nat := 1

/-- Modelled from the spec: first valid response RRN-ID (see
`PSPSERIALPDURRNID_REQUEST_CONNECT` for the range modelling). -/
def PSPSERIALPDURRNID_RESPONSE_FIRST : Nat := 64

/-- Modelled from the spec: first invalid value after the response RRN-ID
range (18 response kinds parallel to the 18 request kinds). -/
def PSPSERIALPDURRNID_RESPONSE_INVALID_FIRST : Nat := 82

/-- Modelled from the spec: first notification RRN-ID; the Beacon
notification. -/
def PSPSERIALPDURRNID_NOTIFICATION_BEACON : Nat := 128

/-- Modelled from the spec: LogMsg notification RRN-ID. -/
def PSPSERIALPDURRNID_NOTIFICATION_LOG_MSG : Nat := 129

/-- Modelled from the spec: OutputBufWrite notification RRN-ID. -/
def PSPSERIALPDURRNID_NOTIFICATION_OUT_BUF : Nat := 130

/-- Modelled from the spec: Irq notification RRN-ID. -/
def PSPSERIALPDURRNID_NOTIFICATION_IRQ : Nat := 131

/-- Modelled from the spec: CodeModExecFinished notification RRN-ID. -/
def PSPSERIALPDURRNID_NOTIFICATION_CODE_MOD_EXEC_FINISHED : Nat := 132

/-- Modelled from the spec: first notification RRN-ID (= Beacon). -/
def PSPSERIALPDURRNID_NOTIFICATION_FIRST : Nat := 128

/-- Modelled from the spec: first invalid value after the notification
RRN-ID range (5 notification kinds). -/
def PSPSERIALPDURRNID_NOTIFICATION_INVALID_FIRST : Nat := 133

/-- Maximum number of CCDs supported (`PSP_CCDS_MAX` in `psp-stub-pdu.c`). -/
def PSP_CCDS_MAX : Nat := 16

/-- Modelled from the spec: Irq notification flag, bit 0 = pending IRQ
(`PSP_SERIAL_NOTIFICATION_IRQ_PENDING_IRQ`, defined in the absent
`psp-serial-stub.h`; the spec states bit 0 = IRQ). -/
def PSP_SERIAL_NOTIFICATION_IRQ_PENDING_IRQ : Nat := 1

/-- Modelled from the spec: Irq notification flag, bit 1 = pending FIQ. -/
def PSP_SERIAL_NOTIFICATION_IRQ_PENDING_FIQ : Nat := 2

/-- Modelled from the spec: `sizeof(PSPSERIALPDUHDR)` — the spec fixes a
16-byte header (4-byte start magic followed by the 12 field bytes of the
`u.ab` byte view). -/
def PDU_HDR_SIZE : Nat := 16

/-- Modelled from the spec: `sizeof(PSPSERIALPDUFOOTER)` — the spec fixes an
8-byte footer (4-byte checksum followed by the 4-byte end magic). -/
def PDU_FOOTER_SIZE : Nat := 8

/-- Size of the receive buffer `abPdu` in `PSPSTUBPDUCTXINT` (4096 bytes). -/
def PDU_RECV_BUF_SIZE : Nat := 4096

/-- `MIN` macro. -/
def cMIN (a b : Nat) : Nat := min a b

/-- Byte `i` of a byte list (reads of the `abPdu` buffer / payload casts). -/
def byteAt (l : List Nat) (i : Nat) : Nat := l.getD i 0

/-- Little-endian 32-bit read at byte offset `i` (matches a `uint32_t` load
from the buffer on the little-endian hosts the library targets). -/
def le32At (l : List Nat) (i : Nat) : Nat :=
  byteAt l i + 256 * byteAt l (i + 1) + 65536 * byteAt l (i + 2) +
    16777216 * byteAt l (i + 3)

/-- Little-endian 16-bit read at byte offset `i`. -/
def le16At (l : List Nat) (i : Nat) : Nat :=
  byteAt l i + 256 * byteAt l (i + 1)

/-- Little-endian encoding of a 32-bit value into 4 bytes. -/
def le32Enc (n : Nat) : List Nat :=
  [n % 256, n / 256 % 256, n / 65536 % 256, n / 16777216 % 256]

/-- Little-endian encoding of a 16-bit value into 2 bytes. -/
def le16Enc (n : Nat) : List Nat := [n % 256, n / 256 % 256]

/-- Number of zero pad bytes appended after a `cb`-byte payload:
`((cb + 7) & ~7) - cb` in the C source. -/
def pad8 (cb : Nat) : Nat := (cb + 7) / 8 * 8 - cb

/-- Sum of a byte list (the C code accumulates into a `uint32_t`; the final
wrapped value is the plain sum taken `% 2^32` at the point of use). -/
def sumBytes (l : List Nat) : Nat := l.sum

/-- The PDU receive states (`PSPSERIALPDURECVSTATE`). -/
inductive RecvPhase where
  | magic
  | hdr
  | payload
  | footer
deriving DecidableEq, Repr

/-- A complete received PDU as handed to consumers: the parsed header fields
of `PSPSERIALPDUHDR.u.Fields` plus the payload bytes following the header. -/
structure Pdu where
  cbPdu : Nat
  cPdus : Nat
  enmRrnId : Nat
  idCcd : Nat
  tsMillies : Nat
  payload : List Nat
deriving DecidableEq, Repr

/-- The internal PDU context `PSPSTUBPDUCTXINT` (the provider and I/O
callback handles are external collaborators and are not part of the state;
`logLines` and `outEvents` record the `pfnLogMsg` / `pfnOutBufWrite`
callback invocations in order, callbacks assumed installed). -/
structure PduCtx where
  cPdusSent : Nat
  cPduRecvNext : Nat
  cBeaconsSeen : Nat
  phase : RecvPhase
  cbPduRecvLeft : Nat
  /-- The valid prefix of `abPdu` (its length is `offPduRecv`). -/
  buf : List Nat
  fConnect : Bool
  cbPduMax : Nat
  cCcds : Nat
  /-- The valid prefix of `achLogMsg` (its length is `cchLogMsgAvail`);
  the remainder of the 1024-byte C buffer is zero-filled. -/
  logBuf : List Nat
  logLines : List (List Nat)
  outEvents : List (List Nat)
  cCcdsIrqChange : Nat
  afPerCcdIrqNotRcvd : List Bool
  afPerCcdIrq : List Bool
  afPerCcdFirq : List Bool
deriving DecidableEq, Repr

/-- `pspStubPduCtxRecvReset`: reset the receive state machine. -/
def recvReset (c : PduCtx) : PduCtx :=
  { c with phase := .magic, cbPduRecvLeft := 4, buf := [] }

/-- `pspStubPduCtxCreate`: the freshly created context (`calloc` zero-fills;
`cCcds` is set to 1 "to make validation succeed during the initial connect
phase"). -/
def createCtx : PduCtx :=
  recvReset
    { cPdusSent := 0, cPduRecvNext := 0, cBeaconsSeen := 0,
      phase := .magic, cbPduRecvLeft := 4, buf := [],
      fConnect := false, cbPduMax := 0, cCcds := 1,
      logBuf := [], logLines := [], outEvents := [],
      cCcdsIrqChange := 0,
      afPerCcdIrqNotRcvd := List.replicate 16 false,
      afPerCcdIrq := List.replicate 16 false,
      afPerCcdFirq := List.replicate 16 false }

/-- `pspStubPduCtxHdrValidate` on the 16 header bytes in `buf`:
stub-to-host start magic, payload length within the buffer, RRN-ID in the
response or notification range, PDU counter check when connected, CCD index
below the CCD count. -/
def hdrValidate (c : PduCtx) (buf : List Nat) : Bool :=
  le32At buf 0 == PSP_SERIAL_PSP_2_EXT_PDU_START_MAGIC &&
  le32At buf 4 ≤ PDU_RECV_BUF_SIZE - PDU_HDR_SIZE - PDU_FOOTER_SIZE &&
  ((PSPSERIALPDURRNID_NOTIFICATION_FIRST ≤ byteAt buf 12 &&
      byteAt buf 12 < PSPSERIALPDURRNID_NOTIFICATION_INVALID_FIRST) ||
   (PSPSERIALPDURRNID_RESPONSE_FIRST ≤ byteAt buf 12 &&
      byteAt buf 12 < PSPSERIALPDURRNID_RESPONSE_INVALID_FIRST)) &&
  !(le32At buf 8 != c.cPduRecvNext + 1 && c.fConnect) &&
  byteAt buf 13 < c.cCcds

/-- The checksum condition of `pspStubPduCtxValidate`: the `uint32_t` sum of
the 12 header field bytes (`u.ab`), the payload bytes and the pad bytes, plus
the footer checksum field, wraps to zero. -/
def pduChecksumOk (buf : List Nat) : Bool :=
  let cbPdu := le32At buf 4
  let cbPad := pad8 cbPdu
  (sumBytes ((buf.drop 4).take (12 + cbPdu + cbPad)) % 4294967296 +
      le32At buf (16 + cbPdu + cbPad)) % 4294967296 == 0

/-- `pspStubPduCtxValidate`: checksum over header fields + payload + pad plus
the footer checksum wraps to zero, and the footer end magic is the
stub-to-host end magic. -/
def pduValidate (buf : List Nat) : Bool :=
  let cbPdu := le32At buf 4
  let cbPad := pad8 cbPdu
  pduChecksumOk buf &&
    le32At buf (20 + cbPdu + cbPad) == PSP_SERIAL_PSP_2_EXT_PDU_END_MAGIC

/-- Parse the complete PDU in `buf` (header fields + payload view), as handed
out through `*ppPduRcvd`. -/
def mkPdu (buf : List Nat) : Pdu :=
  { cbPdu := le32At buf 4, cPdus := le32At buf 8,
    enmRrnId := byteAt buf 12, idCcd := byteAt buf 13,
    tsMillies := le16At buf 14,
    payload := (buf.drop 16).take (le32At buf 4) }

/-- Outcome of one state-machine step: nothing yet, a complete valid PDU
(`*ppPduRcvd` set), or a validation error (`rc = -1` out of
`pspStubPduCtxRecvAdvance`). -/
inductive FeedEv where
  | more
  | delivered (p : Pdu)
  | fail
deriving DecidableEq, Repr

/-- `pspStubPduCtxRecvAdvance`: process the completed state and advance. -/
def recvAdvance (c : PduCtx) : PduCtx × FeedEv :=
  match c.phase with
  | .magic =>
      if le32At c.buf 0 == PSP_SERIAL_PSP_2_EXT_PDU_START_MAGIC then
        ({ c with phase := .hdr, cbPduRecvLeft := PDU_HDR_SIZE - 4 }, .more)
      else
        ({ c with buf := c.buf.drop 1, cbPduRecvLeft := 1 }, .more)
  | .hdr =>
      if hdrValidate c c.buf then
        if le32At c.buf 4 ≠ 0 then
          ({ c with phase := .payload,
                    cbPduRecvLeft := le32At c.buf 4 + pad8 (le32At c.buf 4) },
           .more)
        else
          ({ c with phase := .footer, cbPduRecvLeft := PDU_FOOTER_SIZE }, .more)
      else
        (recvReset c, .more)
  | .payload =>
      ({ c with phase := .footer, cbPduRecvLeft := PDU_FOOTER_SIZE }, .more)
  | .footer =>
      if pduValidate c.buf then
        (recvReset { c with cPduRecvNext := c.cPduRecvNext + 1 },
         .delivered (mkPdu c.buf))
      else
        (recvReset c, .fail)

/-- Feed one wire byte to the receive state machine: store it at
`offPduRecv`, and when the current state has all its bytes, advance
(`pspStubPduCtxRecv` reads at most `cbPduRecvLeft` bytes at a time, so a
byte-wise feed covers every possible read partition). -/
def feedByte (c : PduCtx) (b : Nat) : PduCtx × FeedEv :=
  let c' := { c with buf := c.buf ++ [b], cbPduRecvLeft := c.cbPduRecvLeft - 1 }
  if c.cbPduRecvLeft - 1 = 0 then recvAdvance c' else (c', .more)

/-- Feed a whole byte sequence, collecting the events in order. -/
def feedAll (c : PduCtx) : List Nat → PduCtx × List FeedEv
  | [] => (c, [])
  | b :: rest =>
      let (c', ev) := feedByte c b
      let (c'', evs) := feedAll c' rest
      (c'', (match ev with | .more => [] | e => [e]) ++ evs)

/-- The delivered PDUs among a list of events. -/
def deliveredOf (evs : List FeedEv) : List Pdu :=
  evs.foldr (fun e acc => match e with | .delivered p => p :: acc | _ => acc) []

/-- State invariant of the receive machine, established at creation and
preserved by every fed byte: the per-state byte counter is positive and
consistent with the buffer fill, and past the header stage the buffered
header has passed `pspStubPduCtxHdrValidate`. -/
def Inv (c : PduCtx) : Prop :=
  0 < c.cbPduRecvLeft ∧
  (c.phase = .magic → c.buf.length + c.cbPduRecvLeft = 4) ∧
  (c.phase = .hdr → c.buf.length + c.cbPduRecvLeft = 16) ∧
  ((c.phase = .payload ∨ c.phase = .footer) →
    16 ≤ c.buf.length ∧ hdrValidate c c.buf = true)

instance (c : PduCtx) : Decidable (Inv c) := by
  unfold Inv
  infer_instance

/-- A concrete well-formed stub-to-host PDU byte sequence used in witnesses
and counterexamples: an empty-payload Beacon-ID PDU with counter 1, CCD 0,
checksum `2^32 - 129` and the stub-to-host magics. -/
def examplePduBytes : List Nat :=
  [0x50, 0x54, 0x53, 0x50, 0, 0, 0, 0, 1, 0, 0, 0, 128, 0, 0, 0,
   0x7F, 0xFF, 0xFF, 0xFF, 0x45, 0x54, 0x53, 0x50]

/-- The PDU parsed from `examplePduBytes`. -/
def examplePdu : Pdu :=
  { cbPdu := 0, cPdus := 1, enmRrnId := 128, idCcd := 0, tsMillies := 0,
    payload := [] }

/-- The machine state one byte before `examplePduBytes` completes. -/
def exampleCtxPre : PduCtx := (feedAll createCtx (examplePduBytes.take 23)).1

/-- A concrete Beacon notification PDU with counter 7. -/
def exampleBeaconPdu : Pdu :=
  { cbPdu := 4, cPdus := 2, enmRrnId := 128, idCcd := 0, tsMillies := 0,
    payload := [7, 0, 0, 0] }

/-- A concrete Irq notification PDU for CCD 0 with only the FIQ bit set. -/
def exampleIrqPduFiq : Pdu :=
  { cbPdu := 4, cPdus := 2, enmRrnId := 131, idCcd := 0, tsMillies := 0,
    payload := [2, 0, 0, 0] }

/-- A concrete Irq notification PDU for CCD 0 with only the IRQ bit set. -/
def exampleIrqPduIrq : Pdu :=
  { cbPdu := 4, cPdus := 3, enmRrnId := 131, idCcd := 0, tsMillies := 0,
    payload := [1, 0, 0, 0] }

/-- The log scenario payloads: "hello ", "world\nmore" and " text\n". -/
def exampleLogMsg1 : List Nat := [104, 101, 108, 108, 111, 32]

/-- Second log scenario payload. -/
def exampleLogMsg2 : List Nat :=
  [119, 111, 114, 108, 100, 10, 109, 111, 114, 101]

/-- Third log scenario payload. -/
def exampleLogMsg3 : List Nat := [32, 116, 101, 120, 116, 10]

/-- The first expected log line, "hello world\n". -/
def exampleLogLine1 : List Nat :=
  [104, 101, 108, 108, 111, 32, 119, 111, 114, 108, 100, 10]

/-- The second expected log line, "more text\n". -/
def exampleLogLine2 : List Nat :=
  [109, 111, 114, 101, 32, 116, 101, 120, 116, 10]

/-- `strchr(&achLogMsg[0], '\n')` on the log buffer: index of the first
newline byte, scanning the valid prefix followed by the zero-filled tail, so
the scan also stops at the first 0 byte. -/
def chrNl : List Nat → Option Nat
  | [] => none
  | b :: rest =>
      if b = 10 then some 0
      else if b = 0 then none
      else (chrNl rest).map (· + 1)

/-- The flush loop of `pspStubPduCtxLogMsgHandle` with explicit fuel (each
iteration removes at least one byte, so `fuel = buf.length` covers every
iteration of the C `for (;;)` loop). -/
def flushLinesGo : Nat → List Nat → List (List Nat) × List Nat
  | 0, buf => ([], buf)
  | fuel + 1, buf =>
      match chrNl buf with
      | some i =>
          let (ls, rem) := flushLinesGo fuel (buf.drop (i + 1))
          (buf.take (i + 1) :: ls, rem)
      | none => ([], buf)

/-- The flush loop of `pspStubPduCtxLogMsgHandle`: while `strchr` finds a
newline, hand the prefix up to and including it to `pfnLogMsg` and
`memmove` the remainder to the front.  Returns the lines flushed (in call
order) and the remaining buffer. -/
def flushLines (buf : List Nat) : List (List Nat) × List Nat :=
  flushLinesGo buf.length buf

/-- `pspStubPduCtxLogMsgHandle`: drop the message if it does not fit into the
1024-byte buffer, otherwise append it and flush every complete line to the
`pfnLogMsg` callback. -/
def logMsgHandle (c : PduCtx) (msg : List Nat) : PduCtx :=
  if msg.length ≤ 1024 - c.logBuf.length then
    let (ls, rem) := flushLines (c.logBuf ++ msg)
    { c with logBuf := rem, logLines := c.logLines ++ ls }
  else c

/-- `pspStubPduCtxOutBufWriteHandle`: forward the notification payload to the
`pfnOutBufWrite` callback (recorded as an event; the id/data split inside the
payload belongs to the absent `PSPSERIALOUTBUFNOT` struct). -/
def outBufWriteHandle (c : PduCtx) (msg : List Nat) : PduCtx :=
  { c with outEvents := c.outEvents ++ [msg] }

/-- Outcome of dispatching one complete PDU inside `pspStubPduCtxRecvId`:
keep waiting (`continue`), return the PDU to the caller, or fail the receive
call with the C status code (`rc = -1` for every failure path). -/
inductive DispatchOut where
  | cont
  | deliver
  | fail (rc : Int)
deriving DecidableEq, Repr

/-- The dispatch logic of `pspStubPduCtxRecvId` for one complete PDU received
while waiting for RRN-ID `awaited`: deliver on a match, otherwise handle the
known notifications (LogMsg, OutputBufWrite, Irq, Beacon) and fail on
anything else. -/
def recvIdDispatch (c : PduCtx) (awaited : Nat) (p : Pdu) : PduCtx × DispatchOut :=
  if p.enmRrnId ≠ awaited then
    if p.enmRrnId = PSPSERIALPDURRNID_NOTIFICATION_LOG_MSG then
      (logMsgHandle c p.payload, .cont)
    else if p.enmRrnId = PSPSERIALPDURRNID_NOTIFICATION_OUT_BUF then
      (outBufWriteHandle c p.payload, .cont)
    else if p.enmRrnId = PSPSERIALPDURRNID_NOTIFICATION_IRQ then
      if p.idCcd < PSP_CCDS_MAX then
        if !(c.afPerCcdIrqNotRcvd.getD p.idCcd false) then
          ({ c with
               afPerCcdIrqNotRcvd := c.afPerCcdIrqNotRcvd.set p.idCcd true,
               afPerCcdIrq := c.afPerCcdIrq.set p.idCcd
                 (le32At p.payload 0 &&& PSP_SERIAL_NOTIFICATION_IRQ_PENDING_IRQ != 0),
               afPerCcdFirq := c.afPerCcdFirq.set p.idCcd
                 (le32At p.payload 0 &&& PSP_SERIAL_NOTIFICATION_IRQ_PENDING_FIQ != 0),
               cCcdsIrqChange := c.cCcdsIrqChange + 1 }, .cont)
        else (c, .cont)
      else (c, .fail (-1))
    else if p.enmRrnId = PSPSERIALPDURRNID_NOTIFICATION_BEACON then
      if !c.fConnect || le32At p.payload 0 = c.cBeaconsSeen + 1 then
        ({ c with cBeaconsSeen := c.cBeaconsSeen + 1 }, .cont)
      else (c, .fail (-1))
    else (c, .fail (-1))
  else (c, .deliver)

/-- The 12 field bytes (`u.ab`) of a host-to-stub PDU header as initialized
by `pspStubPduCtxSend`.  Modelled from the spec: the packing of the field
view into the 12 bytes after the start magic is fixed by the absent
`psp-serial-stub.h`; here `cbPdu` and `cPdus` are 32-bit little-endian,
`enmRrnId` and `idCcd` one byte each and `tsMillies` 16-bit little-endian. -/
def hdrFieldBytes (cbPdu cPdus enmRrnId idCcd tsMillies : Nat) : List Nat :=
  le32Enc cbPdu ++ le32Enc cPdus ++ [enmRrnId % 256, idCcd % 256] ++
    le16Enc tsMillies

/-- The checksum `pspStubPduCtxSend` stores in the footer: the `uint32_t` sum
of the 12 header field bytes and the payload bytes (pad bytes are zero and
skipped), negated as `(0xffffffff - uChkSum) + 1`. -/
def sendChkSum (fieldBytes payload : List Nat) : Nat :=
  (4294967295 - (sumBytes fieldBytes + sumBytes payload) % 4294967296 + 1) %
    4294967296

/-- The wire bytes `pspStubPduCtxSend` emits for one PDU: header (start magic
and field bytes with the post-increment PDU counter), payload, zero pad to an
8-byte payload boundary, footer (checksum and end magic). -/
def sendWire (cPdusSentBefore idCcd enmRrnId : Nat) (payload : List Nat) :
    List Nat :=
  let fields := hdrFieldBytes payload.length (cPdusSentBefore + 1) enmRrnId
    idCcd 0
  le32Enc PSP_SERIAL_EXT_2_PSP_PDU_START_MAGIC ++ fields ++ payload ++
    List.replicate (pad8 payload.length) 0 ++
    le32Enc (sendChkSum fields payload) ++
    le32Enc PSP_SERIAL_EXT_2_PSP_PDU_END_MAGIC

/-- `pspStubPduCtxSend` state change plus emitted bytes (`++pThis->cPdusSent`
stamps the incremented counter into the header). -/
def sendPdu (c : PduCtx) (idCcd enmRrnId : Nat) (payload : List Nat) :
    PduCtx × List Nat :=
  ({ c with cPdusSent := c.cPdusSent + 1 },
   sendWire c.cPdusSent idCcd enmRrnId payload)

/-- Modelled from the spec: `sizeof(PSPSERIALPSPMEMXFERREQ)` — the PSP memory
transfer request carries a 32-bit start address and a 32-bit byte count ("8
request fields" in the chunked-read scenario), 8 bytes; the struct itself is
in the absent `psp-serial-stub.h`. -/
def PSPMEMXFERREQ_SIZE : Nat := 8

/-- The slow-path loop of `pspStubPduCtxPspMemRead`: repeated chunks of
`min(cbRead, cbPduPayloadMax)`, advancing the address (32-bit `PSPADDR`)
by each chunk.  `fuel` bounds the recursion; with `maxp = 0` the C loop never
terminates, with `maxp ≥ 1` a fuel of `cbRead` suffices. -/
def memReadChunksGo (maxp : Nat) : Nat → Nat → Nat → List (Nat × Nat)
  | 0, _, _ => []
  | _ + 1, _, 0 => []
  | fuel + 1, addr, cbRead =>
      let cbThis := cMIN cbRead maxp
      (addr, cbThis) ::
        memReadChunksGo maxp fuel ((addr + cbThis) % 4294967296) (cbRead - cbThis)

/-- The request/response round trips `pspStubPduCtxPspMemRead` performs for a
read of `cbRead` bytes at `addr`, as `(chunk start address, chunk size)`
pairs: a single PDU on the fast path, otherwise the chunked slow path with
`cbPduPayloadMax = cbPduMax - sizeof(Req) - sizeof(hdr) - sizeof(footer)`. -/
def pspMemReadChunks (cbPduMax addr cbRead : Nat) : List (Nat × Nat) :=
  let maxp := cbPduMax - PSPMEMXFERREQ_SIZE - PDU_HDR_SIZE - PDU_FOOTER_SIZE
  if cbRead ≤ maxp then [(addr, cbRead)]
  else memReadChunksGo maxp cbRead addr cbRead

end PspProxy

namespace ScratchAlloc

/-- A free chunk of scratch space (`PSPSCRATCHCHUNKFREE`); the doubly linked
list is modelled as a `List` in link order, head = `pScratchFreeHead`. -/
structure Chunk where
  start : Nat
  size : Nat
deriving DecidableEq, Repr

/-- The best-fit search loop of `PSPProxyCtxScratchSpaceAlloc`: keep the
smallest chunk that fits, preferring the earliest among equals, stopping
early on an exact match. -/
def bestFitGo (cb : Nat) (best : Option Chunk) : List Chunk → Option Chunk
  | [] => best
  | c :: rest =>
      if c.size ≥ cb ∧ (∀ b ∈ best, b.size > c.size) then
        if c.size = cb then some c else bestFitGo cb (some c) rest
      else bestFitGo cb best rest

/-- Replace the first occurrence of chunk `a` by `b` (resizing the chosen
list node in place). -/
def replaceFirst (a b : Chunk) : List Chunk → List Chunk
  | [] => []
  | c :: rest => if c = a then b :: rest else c :: replaceFirst a b rest

/-- Remove the first occurrence of chunk `a` (unlinking the chosen node). -/
def removeFirst (a : Chunk) : List Chunk → List Chunk
  | [] => []
  | c :: rest => if c = a then rest else c :: removeFirst a rest

/-- `PSPProxyCtxScratchSpaceAlloc` on the free list: best-fit search, then
either unlink an exactly matching chunk or shrink the chosen chunk and hand
out its top end.  Returns the allocated address and the new free list, or
`none` when no chunk fits (`rc = -1`). -/
def scratchAlloc (l : List Chunk) (cbAlloc : Nat) :
    Option (Nat × List Chunk) :=
  match bestFitGo cbAlloc none l with
  | none => none
  | some best =>
      if best.size = cbAlloc then some (best.start, removeFirst best l)
      else
        some (best.start + (best.size - cbAlloc),
              replaceFirst best { best with size := best.size - cbAlloc } l)

/-- The walk of `PSPProxyCtxScratchSpaceFree` over a non-empty free list;
`acc` holds the already visited chunks in order (so `acc.getLast?` is
`pChunkCur->pPrev`). -/
def freeWalk (addr cb : Nat) (acc : List Chunk) : List Chunk → List Chunk
  | [] => acc
  | cur :: rest =>
      if addr + cb = cur.start then
        -- Prepend, then merge with the previous chunk if they now touch.
        let cur' : Chunk := { start := addr, size := cur.size + cb }
        match acc.getLast? with
        | some prev =>
            if prev.start + prev.size = cur'.start then
              acc.dropLast ++
                ({ prev with size := prev.size + cur'.size } : Chunk) :: rest
            else acc ++ cur' :: rest
        | none => cur' :: rest
      else if cur.start + cur.size = addr then
        -- Append, then merge with the next chunk if they now touch
        -- (the C merge adds the sizes into the next node without touching
        -- its start address).
        let cur' : Chunk := { cur with size := cur.size + cb }
        match rest with
        | next :: rest' =>
            if cur'.start + cur'.size = next.start then
              acc ++ ({ next with size := next.size + cur'.size } : Chunk) :: rest'
            else acc ++ cur' :: rest
        | [] => acc ++ [cur']
      else if rest = [] ∨
          (cur.start + cur.size < addr ∧
            ∀ next ∈ rest.head?, addr < next.start) then
        acc ++ cur :: { start := addr, size := cb } :: rest
      else freeWalk addr cb (acc ++ [cur]) rest

/-- `PSPProxyCtxScratchSpaceFree` on the free list. -/
def scratchFree (l : List Chunk) (addr cb : Nat) : List Chunk :=
  match l with
  | [] => [{ start := addr, size := cb }]
  | _ => freeWalk addr cb [] l

end ScratchAlloc

/-! ## Supporting lemmas -/

namespace PspProxy

/-- A found newline index lies inside the buffer. -/
theorem chrNl_lt {l : List Nat} {i : Nat} (h : chrNl l = some i) :
    i < l.length := by
  induction l generalizing i with
  | nil => simp [chrNl] at h
  | cons b tl ih =>
      by_cases hb : b = 10
      · simp [chrNl, hb] at h
        simp [List.length_cons]
        omega
      · by_cases hz : b = 0
        · simp [chrNl, hb, hz] at h
        · simp [chrNl, hb, hz, Option.map_eq_some'] at h
          obtain ⟨j, hj, rfl⟩ := h
          have := ih hj
          simp
          omega

/-- The byte found by `chrNl` is a newline, and no earlier byte is a newline
or a terminator. -/
theorem chrNl_found {l : List Nat} {i : Nat} (h : chrNl l = some i) :
    byteAt l i = 10 ∧ ∀ j, j < i → byteAt l j ≠ 10 := by
  induction l generalizing i with
  | nil => simp [chrNl] at h
  | cons b tl ih =>
      by_cases hb : b = 10
      · simp [chrNl, hb] at h
        subst h
        simp [byteAt, hb]
      · by_cases hz : b = 0
        · simp [chrNl, hb, hz] at h
        · simp [chrNl, hb, hz, Option.map_eq_some'] at h
          obtain ⟨j, hj, rfl⟩ := h
          obtain ⟨h1, h2⟩ := ih hj
          refine ⟨h1, ?_⟩
          intro k hk
          match k with
          | 0 => simpa [byteAt] using hb
          | k + 1 =>
              have := h2 k (by omega)
              simpa [byteAt] using this

/-- When the buffer holds no `0` byte, a failed `chrNl` scan means there is
no newline at all. -/
theorem chrNl_none {l : List Nat} (hz : ∀ b ∈ l, b ≠ 0)
    (h : chrNl l = none) : ∀ b ∈ l, b ≠ 10 := by
  induction l with
  | nil => simp
  | cons b tl ih =>
      by_cases hb : b = 10
      · simp [chrNl, hb] at h
      · by_cases h0 : b = 0
        · exact absurd h0 (hz b (by simp))
        · simp [chrNl, hb, h0] at h
          intro x hx
          rcases List.mem_cons.mp hx with rfl | hx'
          · exact hb
          · exact ih (fun y hy => hz y (List.mem_cons_of_mem _ hy)) h x hx'

theorem byteAt_append_left {l l' : List Nat} {i : Nat} (h : i < l.length) :
    byteAt (l ++ l') i = byteAt l i :=
  List.getD_append l l' 0 i h

theorem byteAt_append_right {l l' : List Nat} (i : Nat) :
    byteAt (l ++ l') (l.length + i) = byteAt l' i := by
  rw [byteAt, List.getD_append_right _ _ _ _ (by omega)]
  simp [byteAt]

theorem byteAt_take {l : List Nat} {n j : Nat} (h : j < n) :
    byteAt (l.take n) j = byteAt l j := by
  simp [byteAt, List.getD_eq_getElem?_getD, List.getElem?_take, h]

theorem le32At_append_left {l l' : List Nat} {i : Nat} (h : i + 4 ≤ l.length) :
    le32At (l ++ l') i = le32At l i := by
  unfold le32At
  rw [byteAt_append_left (by omega), byteAt_append_left (by omega),
    byteAt_append_left (by omega), byteAt_append_left (by omega)]

theorem le32At_append_right {l l' : List Nat} (i : Nat) :
    le32At (l ++ l') (l.length + i) = le32At l' i := by
  unfold le32At
  have h1 : l.length + i + 1 = l.length + (i + 1) := by omega
  have h2 : l.length + i + 2 = l.length + (i + 2) := by omega
  have h3 : l.length + i + 3 = l.length + (i + 3) := by omega
  rw [h1, h2, h3, byteAt_append_right, byteAt_append_right,
    byteAt_append_right, byteAt_append_right]

theorem le16At_append_left {l l' : List Nat} {i : Nat} (h : i + 2 ≤ l.length) :
    le16At (l ++ l') i = le16At l i := by
  unfold le16At
  rw [byteAt_append_left (by omega), byteAt_append_left (by omega)]

theorem le32At_take4 (l : List Nat) : le32At (l.take 4) 0 = le32At l 0 := by
  unfold le32At
  rw [byteAt_take (by omega), byteAt_take (by omega), byteAt_take (by omega),
    byteAt_take (by omega)]

theorem le32Enc_length (n : Nat) : (le32Enc n).length = 4 := by
  simp [le32Enc]

theorem le32At_le32Enc (n : Nat) (l : List Nat) :
    le32At (le32Enc n ++ l) 0 = n % 4294967296 := by
  simp [le32At, le32Enc, byteAt]
  omega

theorem sum_le32Enc (n : Nat) : sumBytes (le32Enc n) =
    n % 256 + n / 256 % 256 + n / 65536 % 256 + n / 16777216 % 256 := by
  simp [sumBytes, le32Enc]
  omega

theorem feedAll_append (l₁ l₂ : List Nat) : ∀ c : PduCtx,
    feedAll c (l₁ ++ l₂) =
      ((feedAll (feedAll c l₁).1 l₂).1,
        (feedAll c l₁).2 ++ (feedAll (feedAll c l₁).1 l₂).2) := by
  induction l₁ with
  | nil => intro c; simp [feedAll]
  | cons b rest ih =>
      intro c
      rcases hfb : feedByte c b with ⟨c', ev⟩
      simp only [List.cons_append, feedAll, hfb, ih c']
      cases ev <;> simp [ih c']

/-- Feeding exactly the bytes the current state still expects stores them and
runs `pspStubPduCtxRecvAdvance` once. -/
theorem feedAll_fill (l : List Nat) : ∀ c : PduCtx,
    c.cbPduRecvLeft = l.length → 0 < l.length →
    feedAll c l =
      ((recvAdvance { c with buf := c.buf ++ l, cbPduRecvLeft := 0 }).1,
        match (recvAdvance { c with buf := c.buf ++ l, cbPduRecvLeft := 0 }).2 with
        | .more => []
        | e => [e]) := by
  induction l with
  | nil => intro c h1 h2; simp at h2
  | cons b rest ih =>
      intro c hlen hpos
      by_cases hr : rest = []
      · subst hr
        simp only [List.length_cons, List.length_nil, Nat.zero_add] at hlen
        simp only [feedAll, feedByte, hlen]
        rcases hadv : recvAdvance
            { c with
                buf := c.buf ++ [b],
                cbPduRecvLeft := 0 } with ⟨c₂, ev⟩
        simp only [show (1 : Nat) - 1 = 0 from rfl, if_pos rfl, hadv, feedAll]
        cases ev <;> simp
      · simp only [List.length_cons] at hlen
        have hrl : 0 < rest.length := List.length_pos.mpr hr
        have hne : ¬(c.cbPduRecvLeft - 1 = 0) := by omega
        simp only [feedAll, feedByte, if_neg hne]
        rw [ih { c with
                   buf := c.buf ++ [b],
                   cbPduRecvLeft := c.cbPduRecvLeft - 1 }
            (by simp; omega) hrl]
        simp [List.append_assoc]

/-- Byte-wise resynchronization of the `AwaitMagic` state: if the first
4-byte window of the pending stream that carries the stub-to-host start magic
begins at offset `k`, the machine consumes exactly the bytes up to and
including that window, enters the `Header` state with the magic in the
buffer, and continues on the remaining stream. -/
theorem magicScan (k : Nat) : ∀ (c : PduCtx) (T : List Nat),
    c.phase = .magic →
    c.buf.length + c.cbPduRecvLeft = 4 →
    0 < c.cbPduRecvLeft →
    (∀ i, i < k →
      le32At ((c.buf ++ T).drop i) 0 ≠ PSP_SERIAL_PSP_2_EXT_PDU_START_MAGIC) →
    le32At ((c.buf ++ T).drop k) 0 = PSP_SERIAL_PSP_2_EXT_PDU_START_MAGIC →
    k + 4 ≤ c.buf.length + T.length →
    feedAll c T =
      feedAll
        { c with
            phase := .hdr,
            cbPduRecvLeft := 12,
            buf := ((c.buf ++ T).drop k).take 4 }
        ((c.buf ++ T).drop (k + 4)) := by
  induction k with
  | zero =>
      intro c T hph hlen hpos hwin htgt hbound
      have hTn : c.cbPduRecvLeft ≤ T.length := by omega
      have hT1len : (T.take c.cbPduRecvLeft).length = c.cbPduRecvLeft := by
        simp
        omega
      have hbt : c.buf ++ T.take c.cbPduRecvLeft = (c.buf ++ T).take 4 := by
        conv_rhs => rw [← hlen, List.take_append]
      have hdrop : T.drop c.cbPduRecvLeft = (c.buf ++ T).drop 4 := by
        conv_rhs => rw [← hlen, List.drop_append]
      have hmagic : le32At ((c.buf ++ T).take 4) 0 =
          PSP_SERIAL_PSP_2_EXT_PDU_START_MAGIC := by
        rw [le32At_take4]
        simpa using htgt
      have hadv : recvAdvance
          { c with
              buf := c.buf ++ T.take c.cbPduRecvLeft,
              cbPduRecvLeft := 0 } =
          ({ c with
               phase := .hdr,
               cbPduRecvLeft := 12,
               buf := (c.buf ++ T).take 4 }, FeedEv.more) := by
        simp [recvAdvance, hph, hbt, hmagic, PDU_HDR_SIZE]
      conv_lhs => rw [← List.take_append_drop c.cbPduRecvLeft T]
      rw [feedAll_append, feedAll_fill (T.take c.cbPduRecvLeft) c hT1len.symm
        (by omega), hadv]
      simp [hdrop]
  | succ k ih =>
      intro c T hph hlen hpos hwin htgt hbound
      have hTn : c.cbPduRecvLeft ≤ T.length := by omega
      have hSlen : 4 ≤ (c.buf ++ T).length := by simp; omega
      have hT1len : (T.take c.cbPduRecvLeft).length = c.cbPduRecvLeft := by
        simp
        omega
      have hbt : c.buf ++ T.take c.cbPduRecvLeft = (c.buf ++ T).take 4 := by
        conv_rhs => rw [← hlen, List.take_append]
      have hdrop : T.drop c.cbPduRecvLeft = (c.buf ++ T).drop 4 := by
        conv_rhs => rw [← hlen, List.drop_append]
      have hnomagic : ¬(le32At ((c.buf ++ T).take 4) 0 =
          PSP_SERIAL_PSP_2_EXT_PDU_START_MAGIC) := by
        rw [le32At_take4]
        simpa using hwin 0 (by omega)
      have hadv : recvAdvance
          { c with
              buf := c.buf ++ T.take c.cbPduRecvLeft,
              cbPduRecvLeft := 0 } =
          ({ c with
               phase := .magic,
               buf := ((c.buf ++ T).take 4).drop 1,
               cbPduRecvLeft := 1 }, FeedEv.more) := by
        simp [recvAdvance, hph, hbt, hnomagic]
      conv_lhs => rw [← List.take_append_drop c.cbPduRecvLeft T]
      rw [feedAll_append, feedAll_fill (T.take c.cbPduRecvLeft) c hT1len.symm
        (by omega), hadv]
      have hstep : ((c.buf ++ T).take 4).drop 1 ++ (c.buf ++ T).drop 4 =
          (c.buf ++ T).drop 1 := by
        rw [List.drop_take, show (4 : Nat) - 1 = 3 from rfl,
          show (c.buf ++ T).drop 4 = ((c.buf ++ T).drop 1).drop 3 by
            rw [List.drop_drop]]
        exact List.take_append_drop 3 ((c.buf ++ T).drop 1)
      have hih := ih
        { c with
            phase := .magic,
            buf := ((c.buf ++ T).take 4).drop 1,
            cbPduRecvLeft := 1 }
        ((c.buf ++ T).drop 4)
        rfl
        (by
          simp [List.length_take, List.length_drop, List.length_append]
          omega)
        (by simp)
        (by
          intro i hi
          rw [hstep, List.drop_drop]
          exact hwin (1 + i) (by omega))
        (by
          rw [hstep, List.drop_drop]
          simpa [Nat.add_comm] using htgt)
        (by
          simp [List.length_take, List.length_drop, List.length_append]
          omega)
      rw [hstep] at hih
      simp only [List.drop_drop] at hih
      rw [show (1 : Nat) + k = k + 1 from by omega,
        show (1 : Nat) + (k + 4) = k + 1 + 4 from by omega] at hih
      simp at hih
      simp [hdrop, hih]

/-- `pspStubPduCtxHdrValidate` only reads the 16 header bytes, so appending
payload/footer bytes does not change its verdict. -/
theorem hdrValidate_append (c : PduCtx) (l l' : List Nat)
    (h : 16 ≤ l.length) : hdrValidate c (l ++ l') = hdrValidate c l := by
  unfold hdrValidate
  rw [le32At_append_left (by omega), le32At_append_left (by omega),
    le32At_append_left (by omega), byteAt_append_left (by omega),
    byteAt_append_left (by omega)]

/-- `hdrValidate` only reads the connection-level fields, not the machine
fields. -/
theorem hdrValidate_machineFields (c : PduCtx) (ph : RecvPhase)
    (n : Nat) (bf l : List Nat) :
    hdrValidate { c with phase := ph, cbPduRecvLeft := n, buf := bf } l =
      hdrValidate c l := rfl

/-- The freshly created context satisfies the receive-machine invariant. -/
theorem Inv_createCtx : Inv createCtx := by decide

/-- The receive-machine invariant is preserved by every fed byte. -/
theorem Inv_feedByte (c : PduCtx) (b : Nat) (h : Inv c) :
    Inv (feedByte c b).1 := by
  obtain ⟨hpos, hmag, hhdr, hpf⟩ := h
  unfold feedByte
  by_cases hz : c.cbPduRecvLeft - 1 = 0
  · have hone : c.cbPduRecvLeft = 1 := by omega
    simp only [hz, if_pos rfl]
    rcases hph : c.phase with _ | _ | _ | _
    · -- magic state completed
      have hlen : c.buf.length = 3 := by have := hmag hph; omega
      by_cases hm : le32At (c.buf ++ [b]) 0 =
          PSP_SERIAL_PSP_2_EXT_PDU_START_MAGIC
      · simp [recvAdvance, hph, hm, Inv, PDU_HDR_SIZE, hlen]
      · simp [recvAdvance, hph, hm, Inv, hlen]
    · -- header state completed
      have hlen : c.buf.length = 15 := by have := hhdr hph; omega
      by_cases hv : hdrValidate c (c.buf ++ [b]) = true
      · by_cases hcb : le32At (c.buf ++ [b]) 4 = 0
        · simp [recvAdvance, hph, hv, hcb, Inv, PDU_FOOTER_SIZE, hlen,
            hdrValidate_machineFields]
        · simp [recvAdvance, hph, hv, hcb, Inv, hlen,
            hdrValidate_machineFields, pad8]
          omega
      · simp [recvAdvance, recvReset, hph, hv, Inv, hlen,
          hdrValidate_machineFields]
    · -- payload state completed
      obtain ⟨hl16, hval⟩ := hpf (Or.inl hph)
      simp [recvAdvance, hph, Inv, PDU_FOOTER_SIZE, hdrValidate_machineFields,
        hdrValidate_append c c.buf [b] hl16, hval]
      omega
    · -- footer state completed
      by_cases hv : pduValidate (c.buf ++ [b]) = true
      · simp [recvAdvance, recvReset, hph, hv, Inv]
      · simp [recvAdvance, recvReset, hph, hv, Inv]
  · simp only [if_neg hz]
    refine ⟨by simp; omega, ?_, ?_, ?_⟩
    · intro hph
      have := hmag hph
      simp at hph ⊢
      omega
    · intro hph
      have := hhdr hph
      simp at hph ⊢
      omega
    · intro hph
      simp at hph
      obtain ⟨hl16, hval⟩ := hpf hph
      refine ⟨by simp; omega, ?_⟩
      rw [hdrValidate_machineFields, hdrValidate_append c c.buf [b] hl16]
      exact hval

/-- A byte is delivered as a complete PDU only out of the `Footer` state with
a buffer that passed header validation earlier (by the invariant) and passes
the complete-PDU validation now; the machine then resets with the inbound
counter incremented. -/
theorem feedByte_delivered (c : PduCtx) (b : Nat) (c' : PduCtx) (p : Pdu)
    (hInv : Inv c) (h : feedByte c b = (c', FeedEv.delivered p)) :
    c.phase = .footer ∧ 16 ≤ c.buf.length ∧
    hdrValidate c (c.buf ++ [b]) = true ∧
    pduValidate (c.buf ++ [b]) = true ∧
    p = mkPdu (c.buf ++ [b]) ∧
    c' = recvReset { c with cPduRecvNext := c.cPduRecvNext + 1 } := by
  obtain ⟨hpos, hmag, hhdr, hpf⟩ := hInv
  unfold feedByte at h
  by_cases hz : c.cbPduRecvLeft - 1 = 0
  · simp only [hz, if_pos rfl] at h
    rcases hph : c.phase with _ | _ | _ | _
    · -- magic state never delivers
      by_cases hm : le32At (c.buf ++ [b]) 0 =
          PSP_SERIAL_PSP_2_EXT_PDU_START_MAGIC <;>
        simp [recvAdvance, hph, hm] at h
    · -- hdr state never delivers
      by_cases hv : hdrValidate c (c.buf ++ [b]) = true
      · by_cases hcb : le32At (c.buf ++ [b]) 4 = 0 <;>
          simp [recvAdvance, hph, hdrValidate_machineFields, hv, hcb] at h
      · simp [recvAdvance, hph, hdrValidate_machineFields, hv] at h
    · -- payload state never delivers
      simp [recvAdvance, hph] at h
    · -- footer state
      obtain ⟨hl16, hval⟩ := hpf (Or.inr hph)
      by_cases hv : pduValidate (c.buf ++ [b]) = true
      · simp [recvAdvance, hph, hv] at h
        refine ⟨rfl, hl16, ?_, hv, h.2.symm, ?_⟩
        · rw [hdrValidate_append c c.buf [b] hl16]
          exact hval
        · rw [← h.1]
          rfl
      · simp [recvAdvance, hph, hv] at h
  · simp only [if_neg hz] at h
    simp at h

/-- Correctness of the flush loop: the flushed lines followed by the
remaining buffer reassemble the input, every flushed line is a complete line
with its single newline at the end, and (absent `0` bytes, which stop the
`strchr` scan) no newline remains in the buffer. -/
theorem flushLinesGo_correct (fuel : Nat) :
    ∀ buf : List Nat, buf.length ≤ fuel →
      (flushLinesGo fuel buf).1.flatten ++ (flushLinesGo fuel buf).2 = buf ∧
      (∀ l ∈ (flushLinesGo fuel buf).1,
        l.getLast? = some 10 ∧ ∀ j, j + 1 < l.length → byteAt l j ≠ 10) ∧
      ((∀ b ∈ buf, b ≠ 0) → ∀ b ∈ (flushLinesGo fuel buf).2, b ≠ 10) := by
  induction fuel with
  | zero =>
      intro buf hlen
      have : buf = [] := List.length_eq_zero.mp (by omega)
      subst this
      simp [flushLinesGo]
  | succ fuel ih =>
      intro buf hlen
      match hscan : chrNl buf with
      | some i =>
          have hi : i < buf.length := chrNl_lt hscan
          have hrest := ih (buf.drop (i + 1)) (by simp; omega)
          obtain ⟨hflat, hlines, hrem⟩ := hrest
          have hgo : flushLinesGo (fuel + 1) buf =
              ((buf.take (i + 1) :: (flushLinesGo fuel (buf.drop (i + 1))).1),
               (flushLinesGo fuel (buf.drop (i + 1))).2) := by
            simp [flushLinesGo, hscan]
          rw [hgo]
          obtain ⟨hnl, hbefore⟩ := chrNl_found hscan
          refine ⟨?_, ?_, ?_⟩
          · simp only [List.flatten_cons, List.append_assoc, hflat]
            exact List.take_append_drop (i + 1) buf
          · intro l hl
            rcases List.mem_cons.mp hl with rfl | hl'
            · constructor
              · have htake : buf.take (i + 1) = buf.take i ++ [buf.getD i 0] := by
                  rw [List.take_succ]
                  congr 1
                  rw [List.getD_eq_getElem?_getD, List.getElem?_eq_getElem hi]
                  simp [List.getElem?_eq_getElem hi]
                rw [htake, List.getLast?_concat]
                exact congrArg some hnl
              · intro j hj
                have hjlen : (buf.take (i + 1)).length = i + 1 := by
                  simp
                  omega
                rw [byteAt_take (by omega)]
                exact hbefore j (by omega)
            · exact hlines l hl'
          · intro hz
            exact hrem (fun b hb => hz b (List.mem_of_mem_drop hb))
      | none =>
          have hgo : flushLinesGo (fuel + 1) buf = ([], buf) := by
            simp [flushLinesGo, hscan]
          rw [hgo]
          exact ⟨by simp, by simp, fun hz => chrNl_none hz hscan⟩

end PspProxy

/-! ## Claim theorems -/

namespace PspProxy

/-- C2: a received byte sequence is delivered as a complete PDU only if the
header start magic is the stub-to-host start magic, the payload length is at
most the buffer capacity minus header and footer sizes, the RRN-ID lies in
the response or notification range, the sequence counter equals the expected
next value (`cPduRecvNext + 1`) whenever connected, the CCD index is below
the CCD count, and the footer checks (checksum and end magic,
`pduValidate`) pass; on a failed header or footer check the PDU is discarded
and the machine resets to `AwaitMagic` (`recvReset`, which preserves every
connection-level field, so the context itself does not fail). -/
theorem C2_recv_validation (c : PduCtx) (b : Nat) (hInv : Inv c) :
    (∀ c' p, feedByte c b = (c', FeedEv.delivered p) →
      le32At (c.buf ++ [b]) 0 = PSP_SERIAL_PSP_2_EXT_PDU_START_MAGIC ∧
      p.cbPdu ≤ PDU_RECV_BUF_SIZE - PDU_HDR_SIZE - PDU_FOOTER_SIZE ∧
      ((PSPSERIALPDURRNID_NOTIFICATION_FIRST ≤ p.enmRrnId ∧
          p.enmRrnId < PSPSERIALPDURRNID_NOTIFICATION_INVALID_FIRST) ∨
        (PSPSERIALPDURRNID_RESPONSE_FIRST ≤ p.enmRrnId ∧
          p.enmRrnId < PSPSERIALPDURRNID_RESPONSE_INVALID_FIRST)) ∧
      (c.fConnect = true → p.cPdus = c.cPduRecvNext + 1) ∧
      p.idCcd < c.cCcds ∧
      pduValidate (c.buf ++ [b]) = true ∧
      c' = recvReset { c with cPduRecvNext := c.cPduRecvNext + 1 }) ∧
    (c.phase = .hdr → c.cbPduRecvLeft = 1 →
      hdrValidate c (c.buf ++ [b]) = false →
      feedByte c b = (recvReset c, FeedEv.more)) ∧
    (c.phase = .footer → c.cbPduRecvLeft = 1 →
      pduValidate (c.buf ++ [b]) = false →
      feedByte c b = (recvReset c, FeedEv.fail)) := by
  refine ⟨?_, ?_, ?_⟩
  · intro c' p h
    obtain ⟨hph, hl16, hhv, hpv, hp, hc'⟩ := feedByte_delivered c b c' p hInv h
    have hhv' := hhv
    simp only [hdrValidate, Bool.and_eq_true, Bool.or_eq_true,
      decide_eq_true_eq, beq_iff_eq, Bool.not_eq_true', Bool.and_eq_false_iff,
      bne_eq_false_iff_eq, Bool.not_eq_true] at hhv'
    obtain ⟨⟨⟨⟨hm, hcb⟩, hrrn⟩, hseq⟩, hccd⟩ := hhv'
    subst hp
    refine ⟨hm, hcb, ?_, ?_, hccd, hpv, hc'⟩
    · simpa [mkPdu] using hrrn
    · intro hcon
      rcases hseq with hseq | hseq
      · simpa [mkPdu] using hseq
      · rw [hseq] at hcon
        cases hcon
  · intro hph hleft hfail
    unfold feedByte
    rw [hleft]
    simp [recvAdvance, hph, hdrValidate_machineFields, hfail, recvReset]
  · intro hph hleft hfail
    unfold feedByte
    rw [hleft]
    simp [recvAdvance, hph, hfail, recvReset]

/-- C2 witness: the concrete PDU `examplePduBytes` is delivered at its last
byte and satisfies every acceptance condition. -/
theorem C2_recv_validation_witness :
    le32At (exampleCtxPre.buf ++ [0x50]) 0 =
      PSP_SERIAL_PSP_2_EXT_PDU_START_MAGIC ∧
    examplePdu.cbPdu ≤ PDU_RECV_BUF_SIZE - PDU_HDR_SIZE - PDU_FOOTER_SIZE ∧
    ((PSPSERIALPDURRNID_NOTIFICATION_FIRST ≤ examplePdu.enmRrnId ∧
        examplePdu.enmRrnId < PSPSERIALPDURRNID_NOTIFICATION_INVALID_FIRST) ∨
      (PSPSERIALPDURRNID_RESPONSE_FIRST ≤ examplePdu.enmRrnId ∧
        examplePdu.enmRrnId < PSPSERIALPDURRNID_RESPONSE_INVALID_FIRST)) ∧
    (exampleCtxPre.fConnect = true →
      examplePdu.cPdus = exampleCtxPre.cPduRecvNext + 1) ∧
    examplePdu.idCcd < exampleCtxPre.cCcds ∧
    pduValidate (exampleCtxPre.buf ++ [0x50]) = true ∧
    recvReset { createCtx with cPduRecvNext := 1 } =
      recvReset { exampleCtxPre with
                    cPduRecvNext := exampleCtxPre.cPduRecvNext + 1 } :=
  (C2_recv_validation exampleCtxPre 0x50 (by decide)).1
    (recvReset { createCtx with cPduRecvNext := 1 }) examplePdu (by decide)

/-- C1 counterexample: for the very first sent PDU (a Connect request with
empty payload) the 32-bit wrap-around sum of *all* 16 header bytes plus the
footer checksum is the byte sum of the start magic, not 0: the checksum of
`pspStubPduCtxSend` covers only the 12 field bytes (`u.ab`), never the 4
start-magic bytes. -/
theorem C1_counterexample :
    ¬((sumBytes ((sendWire 0 0 PSPSERIALPDURRNID_REQUEST_CONNECT []).take 16) +
        le32At (sendWire 0 0 PSPSERIALPDURRNID_REQUEST_CONNECT []) 16) %
          4294967296 = 0) := by
  decide

/-- C1 (amended): for every sent PDU, the 32-bit wrap-around sum of the 12
non-magic header bytes, the payload bytes and the zero pad bytes plus the
footer checksum field is 0 mod 2^32, with host-to-stub start and end magics;
and every PDU the receive state machine delivers satisfies the mirrored
property with the stub-to-host magics. -/
theorem C1_checksum_magic :
    (∀ (cPdusSentBefore idCcd enmRrnId : Nat) (payload : List Nat),
      (sumBytes (((sendWire cPdusSentBefore idCcd enmRrnId payload).drop 4).take
            (12 + payload.length + pad8 payload.length)) % 4294967296 +
          le32At (sendWire cPdusSentBefore idCcd enmRrnId payload)
            (16 + payload.length + pad8 payload.length)) % 4294967296 = 0 ∧
      le32At (sendWire cPdusSentBefore idCcd enmRrnId payload) 0 =
        PSP_SERIAL_EXT_2_PSP_PDU_START_MAGIC ∧
      le32At (sendWire cPdusSentBefore idCcd enmRrnId payload)
          (20 + payload.length + pad8 payload.length) =
        PSP_SERIAL_EXT_2_PSP_PDU_END_MAGIC) ∧
    (∀ (c : PduCtx) (b : Nat) (c' : PduCtx) (p : Pdu), Inv c →
      feedByte c b = (c', FeedEv.delivered p) →
      (sumBytes (((c.buf ++ [b]).drop 4).take
            (12 + p.cbPdu + pad8 p.cbPdu)) % 4294967296 +
          le32At (c.buf ++ [b])
            (16 + p.cbPdu + pad8 p.cbPdu)) % 4294967296 = 0 ∧
      le32At (c.buf ++ [b]) 0 = PSP_SERIAL_PSP_2_EXT_PDU_START_MAGIC ∧
      le32At (c.buf ++ [b]) (20 + p.cbPdu + pad8 p.cbPdu) =
        PSP_SERIAL_PSP_2_EXT_PDU_END_MAGIC) := by
  constructor
  · intro s idCcd r payload
    set F := hdrFieldBytes payload.length (s + 1) r idCcd 0 with hF
    have hFlen : F.length = 12 := by
      simp [hF, hdrFieldBytes, le32Enc, le16Enc]
    set R := List.replicate (pad8 payload.length) 0 with hR
    have hRlen : R.length = pad8 payload.length := by simp [hR]
    set K := sendChkSum F payload with hK
    have hw : sendWire s idCcd r payload =
        le32Enc PSP_SERIAL_EXT_2_PSP_PDU_START_MAGIC ++
          (F ++ (payload ++ (R ++ (le32Enc K ++
            le32Enc PSP_SERIAL_EXT_2_PSP_PDU_END_MAGIC)))) := by
      simp [sendWire, hF, hR, hK, List.append_assoc]
    have hdrop : (sendWire s idCcd r payload).drop 4 =
        F ++ (payload ++ (R ++ (le32Enc K ++
          le32Enc PSP_SERIAL_EXT_2_PSP_PDU_END_MAGIC))) := by
      rw [hw, show (4 : Nat) =
        (le32Enc PSP_SERIAL_EXT_2_PSP_PDU_START_MAGIC).length from
          (le32Enc_length _).symm, List.drop_left]
    have htake : (((sendWire s idCcd r payload).drop 4).take
        (12 + payload.length + pad8 payload.length)) =
        F ++ (payload ++ R) := by
      rw [hdrop, show 12 + payload.length + pad8 payload.length =
          F.length + (payload.length + R.length) from by omega,
        List.take_append, show payload.length + R.length =
          payload.length + R.length from rfl, List.take_append,
        show R.length = R.length + 0 from by omega, List.take_append]
      simp
    have hsum : sumBytes (F ++ (payload ++ R)) =
        sumBytes F + sumBytes payload := by
      simp [sumBytes, hR]
    have hchk : le32At (sendWire s idCcd r payload)
        (16 + payload.length + pad8 payload.length) = K := by
      have hlen : 16 + payload.length + pad8 payload.length =
          ((le32Enc PSP_SERIAL_EXT_2_PSP_PDU_START_MAGIC ++ F) ++
            (payload ++ R)).length + 0 := by
        simp [hFlen, hRlen, le32Enc_length, List.length_append]
        omega
      rw [hw, show le32Enc PSP_SERIAL_EXT_2_PSP_PDU_START_MAGIC ++
          (F ++ (payload ++ (R ++ (le32Enc K ++
            le32Enc PSP_SERIAL_EXT_2_PSP_PDU_END_MAGIC)))) =
          ((le32Enc PSP_SERIAL_EXT_2_PSP_PDU_START_MAGIC ++ F) ++
            (payload ++ R)) ++ (le32Enc K ++
            le32Enc PSP_SERIAL_EXT_2_PSP_PDU_END_MAGIC) from by
          simp [List.append_assoc],
        hlen, le32At_append_right, le32At_le32Enc]
      rw [hK]
      unfold sendChkSum
      omega
    have hend : le32At (sendWire s idCcd r payload)
        (20 + payload.length + pad8 payload.length) =
        PSP_SERIAL_EXT_2_PSP_PDU_END_MAGIC := by
      have hlen : 20 + payload.length + pad8 payload.length =
          (((le32Enc PSP_SERIAL_EXT_2_PSP_PDU_START_MAGIC ++ F) ++
            (payload ++ R)) ++ le32Enc K).length + 0 := by
        simp [hFlen, hRlen, le32Enc_length, List.length_append]
        omega
      rw [hw, show le32Enc PSP_SERIAL_EXT_2_PSP_PDU_START_MAGIC ++
          (F ++ (payload ++ (R ++ (le32Enc K ++
            le32Enc PSP_SERIAL_EXT_2_PSP_PDU_END_MAGIC)))) =
          (((le32Enc PSP_SERIAL_EXT_2_PSP_PDU_START_MAGIC ++ F) ++
            (payload ++ R)) ++ le32Enc K) ++
            le32Enc PSP_SERIAL_EXT_2_PSP_PDU_END_MAGIC from by
          simp [List.append_assoc],
        hlen, le32At_append_right]
      rw [show le32Enc PSP_SERIAL_EXT_2_PSP_PDU_END_MAGIC =
          le32Enc PSP_SERIAL_EXT_2_PSP_PDU_END_MAGIC ++ [] from by simp,
        le32At_le32Enc]
      decide
    refine ⟨?_, ?_, hend⟩
    · rw [htake, hsum, hchk, hK]
      unfold sendChkSum
      omega
    · rw [hw, le32At_le32Enc]
      decide
  · intro c b c' p hInv h
    obtain ⟨hph, hl16, hhv, hpv, hp, hc'⟩ := feedByte_delivered c b c' p hInv h
    have hcb : p.cbPdu = le32At (c.buf ++ [b]) 4 := by
      rw [hp]
      rfl
    have hhm : le32At (c.buf ++ [b]) 0 =
        PSP_SERIAL_PSP_2_EXT_PDU_START_MAGIC := by
      simp only [hdrValidate, Bool.and_eq_true, beq_iff_eq] at hhv
      exact hhv.1.1.1.1
    simp only [pduValidate, pduChecksumOk, Bool.and_eq_true, beq_iff_eq,
      decide_eq_true_eq] at hpv
    rw [hcb]
    exact ⟨hpv.1, hhm, hpv.2⟩

/-- C1 witness: the amended property instantiated on a concrete send (first
PDU, Connect request, empty payload) and on the concrete delivery of
`examplePduBytes`. -/
theorem C1_checksum_magic_witness :
    ((sumBytes (((sendWire 0 0 PSPSERIALPDURRNID_REQUEST_CONNECT
            ([] : List Nat)).drop 4).take
          (12 + ([] : List Nat).length + pad8 ([] : List Nat).length)) %
            4294967296 +
        le32At (sendWire 0 0 PSPSERIALPDURRNID_REQUEST_CONNECT ([] : List Nat))
          (16 + ([] : List Nat).length + pad8 ([] : List Nat).length)) %
            4294967296 = 0) ∧
    ((sumBytes (((exampleCtxPre.buf ++ [0x50]).drop 4).take
          (12 + examplePdu.cbPdu + pad8 examplePdu.cbPdu)) % 4294967296 +
        le32At (exampleCtxPre.buf ++ [0x50])
          (16 + examplePdu.cbPdu + pad8 examplePdu.cbPdu)) % 4294967296 = 0) ∧
    le32At (exampleCtxPre.buf ++ [0x50]) 0 =
      PSP_SERIAL_PSP_2_EXT_PDU_START_MAGIC :=
  ⟨(C1_checksum_magic.1 0 0 PSPSERIALPDURRNID_REQUEST_CONNECT []).1,
   (C1_checksum_magic.2 exampleCtxPre 0x50
      (recvReset { createCtx with cPduRecvNext := 1 }) examplePdu
      (by decide) (by decide)).1,
   (C1_checksum_magic.2 exampleCtxPre 0x50
      (recvReset { createCtx with cPduRecvNext := 1 }) examplePdu
      (by decide) (by decide)).2.1⟩

/-- C3 counterexample: prepending 4 junk bytes that happen to equal the
stub-to-host start magic to the well-formed PDU `examplePduBytes` makes the
receive machine consume PDU bytes as a bogus header and deliver nothing,
while the PDU alone is delivered — so N junk bytes do not always leave the
PDU delivered unchanged. -/
theorem C3_counterexample :
    (feedAll createCtx examplePduBytes).2 =
      [FeedEv.delivered examplePdu] ∧
    (feedAll createCtx
        ([0x50, 0x54, 0x53, 0x50] ++ examplePduBytes)).2 = [] := by
  constructor <;> decide

/-- C3 (amended): junk bytes followed by a well-formed stub-to-host PDU byte
sequence that the machine accepts on its own still deliver exactly that PDU,
*provided* no 4-byte window beginning before the PDU boundary (inside the
junk, or straddling junk and the PDU's first bytes) reads as the start
magic; the `AwaitMagic` state shifts its 4-byte window left by one byte per
mismatch, so the machine enters `Header` exactly at the PDU boundary. -/
theorem C3_resync (junk pduBytes : List Nat) (cEnd : PduCtx) (evs : List FeedEv)
    (hlen : 4 ≤ pduBytes.length)
    (hstart : le32At pduBytes 0 = PSP_SERIAL_PSP_2_EXT_PDU_START_MAGIC)
    (hsolo : feedAll createCtx pduBytes = (cEnd, evs))
    (hjunk : ∀ i, i < junk.length →
      le32At ((junk ++ pduBytes).drop i) 0 ≠
        PSP_SERIAL_PSP_2_EXT_PDU_START_MAGIC) :
    feedAll createCtx (junk ++ pduBytes) = (cEnd, evs) := by
  have hdropJ : (junk ++ pduBytes).drop junk.length = pduBytes :=
    List.drop_left junk pduBytes
  have hscanJunk := magicScan junk.length createCtx (junk ++ pduBytes)
    rfl (by simp [createCtx, recvReset]) (by simp [createCtx, recvReset])
    (by
      intro i hi
      simpa [createCtx, recvReset] using hjunk i hi)
    (by simpa [createCtx, recvReset, hdropJ] using hstart)
    (by simp [createCtx, recvReset]; omega)
  have hscanSolo := magicScan 0 createCtx pduBytes
    rfl (by simp [createCtx, recvReset]) (by simp [createCtx, recvReset])
    (by omega)
    (by simpa [createCtx, recvReset] using hstart)
    (by simp [createCtx, recvReset]; omega)
  simp only [createCtx, recvReset, List.nil_append, List.drop_append,
    List.drop_zero, Nat.zero_add] at hscanJunk hscanSolo
  simp only [createCtx, recvReset] at hsolo ⊢
  rw [hscanSolo] at hsolo
  rw [hscanJunk, hdropJ]
  exact hsolo

/-- C3 witness: five `0xFF` junk bytes in front of `examplePduBytes` still
deliver exactly `examplePdu`. -/
theorem C3_resync_witness :
    feedAll createCtx ([0xFF, 0xFF, 0xFF, 0xFF, 0xFF] ++ examplePduBytes) =
      (recvReset { createCtx with cPduRecvNext := 1 },
        [FeedEv.delivered examplePdu]) :=
  C3_resync [0xFF, 0xFF, 0xFF, 0xFF, 0xFF] examplePduBytes
    (recvReset { createCtx with cPduRecvNext := 1 })
    [FeedEv.delivered examplePdu]
    (by decide) (by decide) (by decide) (by decide)

/-- C4 counterexample: a Beacon received while not connected is *not* always
consumed silently — when the caller is itself waiting for a Beacon (as
`pspStubPduCtxConnect` does), the beacon is returned to the caller and
`cBeaconsSeen` is not incremented. -/
theorem C4_counterexample :
    recvIdDispatch createCtx PSPSERIALPDURRNID_NOTIFICATION_BEACON
        exampleBeaconPdu = (createCtx, DispatchOut.deliver) ∧
    createCtx.cBeaconsSeen = 0 := by
  constructor <;> decide

/-- C4 (amended): while the caller waits for some other RRN-ID, a Beacon
received while not connected or with counter `cBeaconsSeen + 1` is consumed
silently with `cBeaconsSeen` incremented; a Beacon received while connected
with any other counter makes the receive fail with the *same* generic error
code (`rc = -1`) that any unexpected PDU produces — there is no distinct
ResetDetected status. -/
theorem C4_beacon_dispatch (c : PduCtx) (awaited : Nat) (p : Pdu)
    (hb : p.enmRrnId = PSPSERIALPDURRNID_NOTIFICATION_BEACON)
    (haw : awaited ≠ PSPSERIALPDURRNID_NOTIFICATION_BEACON) :
    ((c.fConnect = false ∨ le32At p.payload 0 = c.cBeaconsSeen + 1) →
      recvIdDispatch c awaited p =
        ({ c with cBeaconsSeen := c.cBeaconsSeen + 1 }, DispatchOut.cont)) ∧
    (c.fConnect = true → le32At p.payload 0 ≠ c.cBeaconsSeen + 1 →
      recvIdDispatch c awaited p = (c, DispatchOut.fail (-1))) ∧
    (∀ q : Pdu, q.enmRrnId ≠ awaited →
      q.enmRrnId ≠ PSPSERIALPDURRNID_NOTIFICATION_LOG_MSG →
      q.enmRrnId ≠ PSPSERIALPDURRNID_NOTIFICATION_OUT_BUF →
      q.enmRrnId ≠ PSPSERIALPDURRNID_NOTIFICATION_IRQ →
      q.enmRrnId ≠ PSPSERIALPDURRNID_NOTIFICATION_BEACON →
      recvIdDispatch c awaited q = (c, DispatchOut.fail (-1))) := by
  have hne : p.enmRrnId ≠ awaited := by rw [hb]; exact fun h => haw h.symm
  refine ⟨?_, ?_, ?_⟩
  · intro hsil
    unfold recvIdDispatch
    rw [if_pos hne, hb, if_neg (by decide), if_neg (by decide),
      if_neg (by decide), if_pos rfl]
    rcases hsil with hc | hc <;> simp [hc]
  · intro hcon hctr
    unfold recvIdDispatch
    rw [if_pos hne, hb, if_neg (by decide), if_neg (by decide),
      if_neg (by decide), if_pos rfl]
    simp [hcon, hctr]
  · intro q h1 h2 h3 h4 h5
    unfold recvIdDispatch
    rw [if_pos h1, if_neg h2, if_neg h3, if_neg h4, if_neg h5]

/-- C4 witness: a Beacon with counter 7 arriving while a response is awaited
on a connected context with `cBeaconsSeen = 5` fails with the same `-1` an
unknown RRN-ID produces, and the silent-consumption path increments the
counter when not connected. -/
theorem C4_beacon_dispatch_witness :
    recvIdDispatch { createCtx with fConnect := true, cBeaconsSeen := 5 }
        PSPSERIALPDURRNID_RESPONSE_FIRST exampleBeaconPdu =
      ({ createCtx with fConnect := true, cBeaconsSeen := 5 },
        DispatchOut.fail (-1)) ∧
    recvIdDispatch createCtx PSPSERIALPDURRNID_RESPONSE_FIRST
        exampleBeaconPdu =
      ({ createCtx with cBeaconsSeen := createCtx.cBeaconsSeen + 1 },
        DispatchOut.cont) :=
  ⟨(C4_beacon_dispatch { createCtx with fConnect := true, cBeaconsSeen := 5 }
      PSPSERIALPDURRNID_RESPONSE_FIRST exampleBeaconPdu (by decide)
      (by decide)).2.1 (by decide) (by decide),
   (C4_beacon_dispatch createCtx PSPSERIALPDURRNID_RESPONSE_FIRST
      exampleBeaconPdu (by decide) (by decide)).1 (Or.inl (by decide))⟩

/-- C8 counterexample: an Irq notification for a CCD whose previous
notification is still unconsumed is ignored entirely — after an FIQ-only
notification followed by an IRQ-only notification for CCD 0, the pending IRQ
flag is still `false` although bit 0 of the second notification is set. -/
theorem C8_counterexample :
    ((recvIdDispatch
        ((recvIdDispatch createCtx PSPSERIALPDURRNID_RESPONSE_FIRST
            exampleIrqPduFiq).1)
        PSPSERIALPDURRNID_RESPONSE_FIRST exampleIrqPduIrq).1).afPerCcdIrq.getD
        0 false = false ∧
    le32At exampleIrqPduIrq.payload 0 &&&
      PSP_SERIAL_NOTIFICATION_IRQ_PENDING_IRQ ≠ 0 := by
  constructor <;> decide

/-- C8 (amended): for an Irq notification dispatched while some other RRN-ID
is awaited: a CCD index at or above the hard maximum (16) fails the receive;
otherwise, when no earlier unconsumed notification for that CCD exists, the
pending IRQ/FIQ flags are set from bits 0/1 of the current-IRQ field, the
CCD is marked and the pending-change count is incremented; when an earlier
unconsumed notification exists the notification is ignored entirely (flags
and count unchanged). -/
theorem C8_irq_dispatch (c : PduCtx) (awaited : Nat) (p : Pdu)
    (hb : p.enmRrnId = PSPSERIALPDURRNID_NOTIFICATION_IRQ)
    (haw : awaited ≠ PSPSERIALPDURRNID_NOTIFICATION_IRQ) :
    (PSP_CCDS_MAX ≤ p.idCcd →
      recvIdDispatch c awaited p = (c, DispatchOut.fail (-1))) ∧
    (p.idCcd < PSP_CCDS_MAX →
      c.afPerCcdIrqNotRcvd.getD p.idCcd false = false →
      recvIdDispatch c awaited p =
        ({ c with
             afPerCcdIrqNotRcvd := c.afPerCcdIrqNotRcvd.set p.idCcd true,
             afPerCcdIrq := c.afPerCcdIrq.set p.idCcd
               (le32At p.payload 0 &&&
                 PSP_SERIAL_NOTIFICATION_IRQ_PENDING_IRQ != 0),
             afPerCcdFirq := c.afPerCcdFirq.set p.idCcd
               (le32At p.payload 0 &&&
                 PSP_SERIAL_NOTIFICATION_IRQ_PENDING_FIQ != 0),
             cCcdsIrqChange := c.cCcdsIrqChange + 1 }, DispatchOut.cont)) ∧
    (p.idCcd < PSP_CCDS_MAX →
      c.afPerCcdIrqNotRcvd.getD p.idCcd false = true →
      recvIdDispatch c awaited p = (c, DispatchOut.cont)) := by
  have hne : p.enmRrnId ≠ awaited := by rw [hb]; exact fun h => haw h.symm
  refine ⟨?_, ?_, ?_⟩
  · intro hccd
    unfold recvIdDispatch
    rw [if_pos hne, hb, if_neg (by decide), if_neg (by decide), if_pos rfl,
      if_neg (Nat.not_lt.mpr hccd)]
  · intro hccd hflag
    unfold recvIdDispatch
    rw [if_pos hne, hb, if_neg (by decide), if_neg (by decide), if_pos rfl,
      if_pos hccd, hflag]
    simp
  · intro hccd hflag
    unfold recvIdDispatch
    rw [if_pos hne, hb, if_neg (by decide), if_neg (by decide), if_pos rfl,
      if_pos hccd, hflag]
    simp

/-- C8 witness: a first Irq notification for CCD 0 with the IRQ bit set on a
fresh context sets the flags from bits 0/1 and increments the change count. -/
theorem C8_irq_dispatch_witness :
    recvIdDispatch createCtx PSPSERIALPDURRNID_RESPONSE_FIRST
        exampleIrqPduIrq =
      ({ createCtx with
           afPerCcdIrqNotRcvd := createCtx.afPerCcdIrqNotRcvd.set 0 true,
           afPerCcdIrq := createCtx.afPerCcdIrq.set 0
             (le32At exampleIrqPduIrq.payload 0 &&&
               PSP_SERIAL_NOTIFICATION_IRQ_PENDING_IRQ != 0),
           afPerCcdFirq := createCtx.afPerCcdFirq.set 0
             (le32At exampleIrqPduIrq.payload 0 &&&
               PSP_SERIAL_NOTIFICATION_IRQ_PENDING_FIQ != 0),
           cCcdsIrqChange := createCtx.cCcdsIrqChange + 1 },
        DispatchOut.cont) :=
  (C8_irq_dispatch createCtx PSPSERIALPDURRNID_RESPONSE_FIRST
      exampleIrqPduIrq (by decide) (by decide)).2.1 (by decide) (by decide)

/-- C5 counterexample: with `cbPduMax = 256` a 1024-byte PSP memory read is
*not* split into 4 chunks at `+0xF0` strides — `256 − 16 − 8 − 8 = 224 =
0xE0`, not `0xF0`, so the claimed address list does not match the code. -/
theorem C5_counterexample :
    ¬((pspMemReadChunks 256 0x40000000 1024).map Prod.fst =
      [0x40000000, 0x400000F0, 0x400001E0, 0x400002D0]) := by
  decide

/-- C5 (amended): with `cbPduMax = 256` (payload budget `256 − 8 request −
16 header − 8 footer = 0xE0`), a 1024-byte PSP memory read at 0x4000_0000 is
split into exactly 5 request/response round trips at addresses 0x4000_0000,
0x4000_00E0, 0x4000_01C0, 0x4000_02A0, 0x4000_0380 with sizes 0xE0, 0xE0,
0xE0, 0xE0, 0x80; the chunks tile the range contiguously, so the
concatenated response payloads cover the stub's 1024-byte buffer exactly. -/
theorem C5_chunked_read :
    pspMemReadChunks 256 0x40000000 1024 =
      [(0x40000000, 0xE0), (0x400000E0, 0xE0), (0x400001C0, 0xE0),
        (0x400002A0, 0xE0), (0x40000380, 0x80)] ∧
    ((pspMemReadChunks 256 0x40000000 1024).map Prod.snd).sum = 1024 ∧
    (∀ i, i < 4 →
      ((pspMemReadChunks 256 0x40000000 1024).getD i (0, 0)).1 +
        ((pspMemReadChunks 256 0x40000000 1024).getD i (0, 0)).2 =
      ((pspMemReadChunks 256 0x40000000 1024).getD (i + 1) (0, 0)).1) := by
  refine ⟨by decide, by decide, by decide⟩

/-- C5 witness: the first two chunks are adjacent. -/
theorem C5_chunked_read_witness :
    ((pspMemReadChunks 256 0x40000000 1024).getD 0 (0, 0)).1 +
      ((pspMemReadChunks 256 0x40000000 1024).getD 0 (0, 0)).2 =
    ((pspMemReadChunks 256 0x40000000 1024).getD 1 (0, 0)).1 :=
  C5_chunked_read.2.2 0 (by decide)

end PspProxy

namespace ScratchAlloc

/-- C6: the scratch alloc/free scenario on region [0x20000, 0x28000): the
two allocations return 0x27000 and 0x25000 as the claim states, but the
final free does *not* collapse the list to one chunk starting at 0x20000 —
the append-side coalesce of `PSPProxyCtxScratchSpaceFree` adds the sizes
into the following node without updating its start address, leaving the
single chunk `{start = 0x27000, size = 0x8000}` (range [0x27000, 0x2F000),
outside the region) where the spec requires `{0x20000, 0x8000}`. -/
theorem C6_scratch_scenario :
    scratchAlloc [⟨0x20000, 0x8000⟩] 0x1000 =
      some (0x27000, [⟨0x20000, 0x7000⟩]) ∧
    scratchAlloc [⟨0x20000, 0x7000⟩] 0x2000 =
      some (0x25000, [⟨0x20000, 0x5000⟩]) ∧
    scratchFree [⟨0x20000, 0x5000⟩] 0x27000 0x1000 =
      [⟨0x20000, 0x5000⟩, ⟨0x27000, 0x1000⟩] ∧
    scratchFree [⟨0x20000, 0x5000⟩, ⟨0x27000, 0x1000⟩] 0x25000 0x2000 =
      [⟨0x27000, 0x8000⟩] ∧
    [(⟨0x27000, 0x8000⟩ : Chunk)] ≠ [⟨0x20000, 0x8000⟩] := by
  refine ⟨by decide, by decide, by decide, by decide, by decide⟩

/-- C7: a reachable alloc/free trace on region [0x1000, 0x4000) (three
0x800-byte allocations from the top, then freeing the two topmost blocks in
order) leaves two *touching* adjacent free chunks [0x3000, 0x3800) and
[0x3800, 0x4000) in the list: the insert branch of
`PSPProxyCtxScratchSpaceFree` never coalesces with the following chunk, so
the claimed coalesce invariant does not hold after every free. -/
theorem C7_invariant_violation :
    scratchAlloc [⟨0x1000, 0x3000⟩] 0x800 =
      some (0x3800, [⟨0x1000, 0x2800⟩]) ∧
    scratchAlloc [⟨0x1000, 0x2800⟩] 0x800 =
      some (0x3000, [⟨0x1000, 0x2000⟩]) ∧
    scratchAlloc [⟨0x1000, 0x2000⟩] 0x800 =
      some (0x2800, [⟨0x1000, 0x1800⟩]) ∧
    scratchFree [⟨0x1000, 0x1800⟩] 0x3800 0x800 =
      [⟨0x1000, 0x1800⟩, ⟨0x3800, 0x800⟩] ∧
    scratchFree [⟨0x1000, 0x1800⟩, ⟨0x3800, 0x800⟩] 0x3000 0x800 =
      [⟨0x1000, 0x1800⟩, ⟨0x3000, 0x800⟩, ⟨0x3800, 0x800⟩] ∧
    (0x3000 + 0x800 = 0x3800) := by
  refine ⟨by decide, by decide, by decide, by decide, by decide, by decide⟩

end ScratchAlloc

namespace PspProxy

/-- C9: log-message reassembly.  (1) The three payloads "hello ",
"world\nmore", " text\n" produce exactly the callback calls
log_line("hello world\n") then log_line("more text\n") and leave the buffer
empty.  (2) A LogMsg payload that does not fit into the remaining buffer
space is dropped silently (state unchanged).  (3) In general, a fitting
payload is appended and then, for every newline (the `strchr` scan stops at
a 0 byte, hence the no-0 hypothesis), one complete line up to and including
the newline is passed to the callback and removed from the front: the
emitted lines followed by the remaining buffer reassemble buffer ++ payload,
each emitted line ends with its only newline, and no newline remains. -/
theorem C9_log_reassembly :
    ((logMsgHandle (logMsgHandle (logMsgHandle createCtx exampleLogMsg1)
        exampleLogMsg2) exampleLogMsg3).logLines =
          [exampleLogLine1, exampleLogLine2] ∧
      (logMsgHandle (logMsgHandle (logMsgHandle createCtx exampleLogMsg1)
        exampleLogMsg2) exampleLogMsg3).logBuf = []) ∧
    (∀ (c : PduCtx) (msg : List Nat),
      1024 - c.logBuf.length < msg.length → logMsgHandle c msg = c) ∧
    (∀ (c : PduCtx) (msg : List Nat),
      msg.length ≤ 1024 - c.logBuf.length →
      (∀ b ∈ c.logBuf ++ msg, b ≠ 0) →
      logMsgHandle c msg =
        { c with
            logBuf := (flushLines (c.logBuf ++ msg)).2,
            logLines := c.logLines ++ (flushLines (c.logBuf ++ msg)).1 } ∧
      (flushLines (c.logBuf ++ msg)).1.flatten ++
        (flushLines (c.logBuf ++ msg)).2 = c.logBuf ++ msg ∧
      (∀ l ∈ (flushLines (c.logBuf ++ msg)).1,
        l.getLast? = some 10 ∧ ∀ j, j + 1 < l.length → byteAt l j ≠ 10) ∧
      (∀ b ∈ (flushLines (c.logBuf ++ msg)).2, b ≠ 10)) := by
  refine ⟨⟨by decide, by decide⟩, ?_, ?_⟩
  · intro c msg hbig
    unfold logMsgHandle
    rw [if_neg (by omega)]
  · intro c msg hfit hz
    have hcore := flushLinesGo_correct (c.logBuf ++ msg).length
      (c.logBuf ++ msg) le_rfl
    refine ⟨?_, hcore.1, hcore.2.1, hcore.2.2 hz⟩
    unfold logMsgHandle
    rw [if_pos hfit]

/-- C9 witness: the drop branch and the general flush property instantiated
on a concrete oversized message and on the first scenario payload. -/
theorem C9_log_reassembly_witness :
    logMsgHandle createCtx (List.replicate 1025 65) = createCtx ∧
    logMsgHandle createCtx exampleLogMsg2 =
      { createCtx with
          logBuf := (flushLines (createCtx.logBuf ++ exampleLogMsg2)).2,
          logLines := createCtx.logLines ++
            (flushLines (createCtx.logBuf ++ exampleLogMsg2)).1 } :=
  ⟨(C9_log_reassembly.2.1 createCtx (List.replicate 1025 65)
      (by
        have h1 : (List.replicate 1025 65).length = 1025 :=
          List.length_replicate _ _
        have h2 : createCtx.logBuf.length = 0 := rfl
        omega)),
   ((C9_log_reassembly.2.2 createCtx exampleLogMsg2 (by decide)
      (by decide)).1)⟩

/-- C10: at creation the CCD count is 1 and the context is not connected, so
header validation accepts only CCD index 0 (`idCcd < cCcds = 1`) until the
Connect handshake rewrites `cCcds`; feeding bytes never changes `cCcds`, and
any header with a nonzero CCD index fails validation and is discarded. -/
theorem C10_preconnect_ccd (buf : List Nat) :
    createCtx.cCcds = 1 ∧
    createCtx.fConnect = false ∧
    (hdrValidate createCtx buf = true → byteAt buf 13 = 0) ∧
    (∀ (c : PduCtx) (b : Nat), ((feedByte c b).1).cCcds = c.cCcds) := by
  refine ⟨rfl, rfl, ?_, ?_⟩
  · intro hv
    simp only [hdrValidate, Bool.and_eq_true, decide_eq_true_eq] at hv
    have := hv.2
    simp [createCtx, recvReset] at this
    omega
  · intro c b
    unfold feedByte
    by_cases hz : c.cbPduRecvLeft - 1 = 0
    · simp only [hz, if_pos rfl]
      rcases hph : c.phase with _ | _ | _ | _
      · by_cases hm : le32At (c.buf ++ [b]) 0 =
            PSP_SERIAL_PSP_2_EXT_PDU_START_MAGIC <;>
          simp [recvAdvance, hph, hm]
      · by_cases hv : hdrValidate c (c.buf ++ [b]) = true <;>
          by_cases hcb : le32At (c.buf ++ [b]) 4 = 0 <;>
          simp [recvAdvance, hph, hdrValidate_machineFields, hv, hcb,
            recvReset]
      · simp [recvAdvance, hph]
      · by_cases hv : pduValidate (c.buf ++ [b]) = true <;>
          simp [recvAdvance, hph, hv, recvReset]
    · simp [hz]

/-- C10 witness: the header of `examplePduBytes` validates on the fresh
context and indeed carries CCD index 0. -/
theorem C10_preconnect_ccd_witness :
    hdrValidate createCtx (examplePduBytes.take 16) = true ∧
    byteAt (examplePduBytes.take 16) 13 = 0 :=
  ⟨by decide,
   (C10_preconnect_ccd (examplePduBytes.take 16)).2.2.1 (by decide)⟩

end PspProxy
